import Mathlib

/-!
# Verification of the cool-vm bytecode execution engine

A shallow embedding of `src/vm.rs`: the 13-slot signed 32-bit register
file, the flat 10,000,000-byte memory, `VM::new`, the fetch-decode-execute
loop `VM::run`, and the per-instruction semantics of `VM::execute`.

Modelling conventions:

* `i32` values are `Int`s; Rust release-mode wrapping arithmetic is
  `wrap32` (two's-complement reduction into `[-2^31, 2^31)`).
* A Rust panic (out-of-bounds indexing, a failing `unwrap`, division by
  zero) aborts the whole process; it is modelled as `Except.error .panic`,
  which is *not* a recoverable error value of the program — the source has
  no error type at all (`execute` returns a bare `bool`).
* `usize` casts of `i32` values sign-extend to 64 bits (`asUsize`).
* Console input is an oracle list of `ReadEvent`s: each `read_line` call
  consumes one event, carrying the line's characters and the outcome of
  the standard library's `trim().parse::<i32>()` on that same line.
  Console output and `println!` diagnostics are collected in a log of
  `OutEvent`s.
-/

/-- Fixed memory capacity: `MAX_MEMORY` in `VM::new` (10 MB). -/
def MAX_MEMORY : Nat := 10000000

/-- Modulus of the 64-bit `usize` type (2^64). -/
def USIZE_MOD : Nat := 18446744073709551616

/-- A Rust `v as usize` cast of an `i32`: sign-extension to 64 bits,
then reinterpretation as an unsigned machine word. -/
def asUsize (v : Int) : Nat := (v % (USIZE_MOD : Int)).toNat

/-- Two's-complement reduction of an integer into the `i32` range
`[-2^31, 2^31)`: Rust release-mode wrapping arithmetic. -/
def wrap32 (v : Int) : Int := (v + 2147483648) % 4294967296 - 2147483648

/-- A Rust panic: out-of-bounds slice/array indexing, a failing
`unwrap`, or an arithmetic fault. It unwinds/aborts the process; the
program has no handler and surfaces no error value to its caller. -/
inductive Panic where
  | panic
deriving DecidableEq

/-- The instruction set of `tokenizer::InstructionType`, as matched by
`VM::execute`. -/
inductive InstructionType where
  | Add
  | AddImmediate
  | And
  | Compare
  | CompareZeroJump
  | ConvertASCIIToInteger
  | ConvertIntegerToASCII
  | Divide
  | GreaterThanZeroJump
  | InputASCII
  | InputInteger
  | Jump
  | JumpRelative
  | LessThanZeroJump
  | LoadAddress
  | LoadByte
  | LoadWord
  | Move
  | Multiply
  | NonZeroJump
  | Or
  | OutputASCII
  | OutputInteger
  | StoreByte
  | StoreWord
  | Subtract
  | End
deriving DecidableEq

/-- Modelled from the spec: the `tokenizer::Register` enum (that crate is
not under `src/`) fixes the numeric slot of the program counter inside the
13-slot register file; the spec says only that `PC` and `IO` are two
distinct reserved indices in `[0,13)`. We fix `PC` as slot 11. -/
def pcIndex : Fin 13 := ⟨11, by decide⟩

/-- Modelled from the spec: the numeric slot of the dedicated
input/output register `tokenizer::Register::IO`; fixed as slot 12
(distinct from `pcIndex`, see the spec's register-file contract). -/
def ioIndex : Fin 13 := ⟨12, by decide⟩

/-- Modelled from the spec: `assembler::Command::from_bytecode` (that
crate is not under `src/`) maps opcode words 1:1 onto the instruction
table; the exact integer encoding is the external assembler's. We fix the
1:1 assignment `0..26` in the source's match-arm order; any word outside
the mapping decodes to `none` (the loop treats it as "stop running"). -/
def decodeInstruction (op : Int) : Option InstructionType :=
  match op with
  | 0 => some .Add
  | 1 => some .AddImmediate
  | 2 => some .And
  | 3 => some .Compare
  | 4 => some .CompareZeroJump
  | 5 => some .ConvertASCIIToInteger
  | 6 => some .ConvertIntegerToASCII
  | 7 => some .Divide
  | 8 => some .GreaterThanZeroJump
  | 9 => some .InputASCII
  | 10 => some .InputInteger
  | 11 => some .Jump
  | 12 => some .JumpRelative
  | 13 => some .LessThanZeroJump
  | 14 => some .LoadAddress
  | 15 => some .LoadByte
  | 16 => some .LoadWord
  | 17 => some .Move
  | 18 => some .Multiply
  | 19 => some .NonZeroJump
  | 20 => some .Or
  | 21 => some .OutputASCII
  | 22 => some .OutputInteger
  | 23 => some .StoreByte
  | 24 => some .StoreWord
  | 25 => some .Subtract
  | 26 => some .End
  | _ => none

/-- The engine state: `VM { registers: [i32; 13], memory: Vec<u8> }`.
`memory` is total over `Nat` but only addresses `< MAX_MEMORY` exist;
every access is guarded exactly where the Rust slicing/`unwrap` would
panic. -/
structure VM where
  registers : Fin 13 → Int
  memory : Nat → Nat

/-- One `io::stdin().read_line` outcome: the call failed, or it returned
a line. `chars` are the line's characters as code points (what
`input.chars()` iterates); `parsed` is the outcome of the standard
library's `input.trim().parse::<i32>()` on that same line (`none` when
the parse fails). -/
inductive ReadEvent where
  | readFail
  | readLine (chars : List Nat) (parsed : Option Int)

/-- One observable output: a `print!`ed character, a `print!`ed decimal
integer, or an `error: ...` diagnostic line from `println!`. -/
inductive OutEvent where
  | charOut (c : Nat)
  | intOut (v : Int)
  | diag

/-- Consume one `read_line` call from the input oracle. An exhausted
oracle behaves like end-of-file: `read_line` returns `Ok(0)` with an
empty line, whose parse as an integer fails. -/
def takeRead : List ReadEvent → ReadEvent × List ReadEvent
  | [] => (.readLine [] none, [])
  | e :: rest => (e, rest)

/-- Point update of the register file (`self.registers[i] = v`). -/
def setReg (r : Fin 13 → Int) (i : Fin 13) (v : Int) : Fin 13 → Int :=
  fun j => if j = i then v else r j

/-- Point update of memory (`self.memory[a] = v`). -/
def setMem (m : Nat → Nat) (a : Nat) (v : Nat) : Nat → Nat :=
  fun j => if j = a then v else m j

/-- An operand word used as a register index: `bytecode[k] as usize`
followed by indexing into `[i32; 13]`, which panics whenever the cast
value is not below 13 (in particular for any negative operand). -/
def regIdx (v : Int) : Except Panic (Fin 13) :=
  if h : asUsize v < 13 then .ok ⟨asUsize v, h⟩ else .error .panic

/-- Little-endian signed 32-bit read of four memory bytes
(`read_i32::<LittleEndian>`). -/
def readI32 (m : Nat → Nat) (a : Nat) : Int :=
  wrap32 (Int.ofNat (m a + 256 * m (a + 1) + 65536 * m (a + 2) + 16777216 * m (a + 3)))

/-- The result sign computed by the `Compare` arm: `-1` if the first
value is smaller, `1` if greater, `0` if equal (no subtraction is
performed by the source). -/
def compareValue (a b : Int) : Int :=
  if a < b then -1 else if b < a then 1 else 0

/-- One `VM::execute` dispatch: the per-instruction semantics of
`src/vm.rs`, arm by arm in source order. Returns the new state, the
remaining input oracle, the output emitted by this instruction, and the
`bool` the Rust function returns (`false` only for `End`); a Rust panic
is `Except.error .panic`. -/
def execute (vm : VM) (instr : InstructionType) (b1 b2 : Int)
    (stdin : List ReadEvent) :
    Except Panic (VM × List ReadEvent × List OutEvent × Bool) :=
  match instr with
  | .Add =>
    match regIdx b1, regIdx b2 with
    | .ok d, .ok s =>
      .ok ({ vm with registers :=
               setReg vm.registers d (wrap32 (vm.registers d + vm.registers s)) },
           stdin, [], true)
    | .error p, _ => .error p
    | _, .error p => .error p
  | .AddImmediate =>
    match regIdx b1 with
    | .ok r =>
      .ok ({ vm with registers :=
               setReg vm.registers r (wrap32 (vm.registers r + b2)) },
           stdin, [], true)
    | .error p => .error p
  | .And =>
    match regIdx b1, regIdx b2 with
    | .ok r1, .ok r2 =>
      let v : Int := if vm.registers r1 ≠ 0 ∧ vm.registers r2 ≠ 0 then 1 else 0
      .ok ({ vm with registers := setReg vm.registers r1 v }, stdin, [], true)
    | .error p, _ => .error p
    | _, .error p => .error p
  | .Compare =>
    match regIdx b1, regIdx b2 with
    | .ok r1, .ok r2 =>
      .ok ({ vm with registers :=
               setReg vm.registers r1 (compareValue (vm.registers r1) (vm.registers r2)) },
           stdin, [], true)
    | .error p, _ => .error p
    | _, .error p => .error p
  | .CompareZeroJump =>
    match regIdx b1 with
    | .ok r =>
      let address := wrap32 (b2 - 12)
      if vm.registers r = 0 then
        .ok ({ vm with registers := setReg vm.registers pcIndex address },
             stdin, [], true)
      else
        .ok (vm, stdin, [], true)
    | .error p => .error p
  | .ConvertASCIIToInteger =>
    let ascii := wrap32 (vm.registers ioIndex - 48)
    let v : Int := if ascii < 0 ∨ 9 < ascii then -1 else ascii
    .ok ({ vm with registers := setReg vm.registers ioIndex v }, stdin, [], true)
  | .ConvertIntegerToASCII =>
    let integer := wrap32 (vm.registers ioIndex + 48)
    let v : Int := if integer < 48 ∨ 57 < integer then 48 else integer
    .ok ({ vm with registers := setReg vm.registers ioIndex v }, stdin, [], true)
  | .Divide =>
    match regIdx b1, regIdx b2 with
    | .ok d, .ok s =>
      let vd := vm.registers d
      let vs := vm.registers s
      if vs = 0 then
        .error .panic
      else if vd = -2147483648 ∧ vs = -1 then
        .error .panic
      else
        .ok ({ vm with registers := setReg vm.registers d (Int.tdiv vd vs) },
             stdin, [], true)
    | .error p, _ => .error p
    | _, .error p => .error p
  | .GreaterThanZeroJump =>
    match regIdx b1 with
    | .ok r =>
      let address := wrap32 (b2 - 12)
      if 0 < vm.registers r then
        .ok ({ vm with registers := setReg vm.registers pcIndex address },
             stdin, [], true)
      else
        .ok (vm, stdin, [], true)
    | .error p => .error p
  | .InputASCII =>
    match takeRead stdin with
    | (.readFail, rest) => .ok (vm, rest, [.diag], true)
    | (.readLine chars _, rest) =>
      match chars with
      | [] => .error .panic
      | c :: _ =>
        .ok ({ vm with registers := setReg vm.registers ioIndex (Int.ofNat c) },
             rest, [], true)
  | .InputInteger =>
    match takeRead stdin with
    | (.readFail, rest) => .ok (vm, rest, [.diag], true)
    | (.readLine _ parsed, rest) =>
      match parsed with
      | some n => .ok ({ vm with registers := setReg vm.registers ioIndex n },
                       rest, [], true)
      | none => .ok (vm, rest, [.diag], true)
  | .Jump =>
    let address := wrap32 (b1 - 12)
    .ok ({ vm with registers := setReg vm.registers pcIndex address },
         stdin, [], true)
  | .JumpRelative =>
    match regIdx b1 with
    | .ok r =>
      let address := wrap32 (vm.registers r - 12)
      .ok ({ vm with registers := setReg vm.registers pcIndex address },
           stdin, [], true)
    | .error p => .error p
  | .LessThanZeroJump =>
    match regIdx b1 with
    | .ok r =>
      let address := wrap32 (b2 - 12)
      if vm.registers r < 0 then
        .ok ({ vm with registers := setReg vm.registers pcIndex address },
             stdin, [], true)
      else
        .ok (vm, stdin, [], true)
    | .error p => .error p
  | .LoadAddress =>
    match regIdx b1 with
    | .ok r =>
      .ok ({ vm with registers := setReg vm.registers r b2 }, stdin, [], true)
    | .error p => .error p
  | .LoadByte =>
    match regIdx b1 with
    | .ok r =>
      let a := asUsize b2
      if a + 1 ≤ MAX_MEMORY then
        .ok ({ vm with registers := setReg vm.registers r (Int.ofNat (vm.memory a)) },
             stdin, [], true)
      else
        .error .panic
    | .error p => .error p
  | .LoadWord =>
    match regIdx b1 with
    | .ok r =>
      let a := asUsize b2
      if a + 2 ≤ MAX_MEMORY then
        .ok ({ vm with registers :=
                 setReg vm.registers r (Int.ofNat (vm.memory a + 256 * vm.memory (a + 1))) },
             stdin, [], true)
      else
        .error .panic
    | .error p => .error p
  | .Move =>
    match regIdx b1, regIdx b2 with
    | .ok rA, .ok rB =>
      .ok ({ vm with registers := setReg vm.registers rA (vm.registers rB) },
           stdin, [], true)
    | .error p, _ => .error p
    | _, .error p => .error p
  | .Multiply =>
    match regIdx b1, regIdx b2 with
    | .ok rA, .ok rB =>
      .ok ({ vm with registers :=
               setReg vm.registers rA (wrap32 (vm.registers rA * vm.registers rB)) },
           stdin, [], true)
    | .error p, _ => .error p
    | _, .error p => .error p
  | .NonZeroJump =>
    match regIdx b1 with
    | .ok r =>
      let address := wrap32 (b2 - 12)
      if vm.registers r ≠ 0 then
        .ok ({ vm with registers := setReg vm.registers pcIndex address },
             stdin, [], true)
      else
        .ok (vm, stdin, [], true)
    | .error p => .error p
  | .Or =>
    match regIdx b1, regIdx b2 with
    | .ok r1, .ok r2 =>
      let v : Int := if vm.registers r1 ≠ 0 ∨ vm.registers r2 ≠ 0 then 1 else 0
      .ok ({ vm with registers := setReg vm.registers r1 v }, stdin, [], true)
    | .error p, _ => .error p
    | _, .error p => .error p
  | .OutputASCII =>
    .ok (vm, stdin, [.charOut ((vm.registers ioIndex % 256).toNat)], true)
  | .OutputInteger =>
    .ok (vm, stdin, [.intOut (vm.registers ioIndex)], true)
  | .StoreByte =>
    match regIdx b1 with
    | .ok r =>
      let a := asUsize b2
      if a ≤ MAX_MEMORY then
        if a < MAX_MEMORY then
          .ok ({ vm with memory := setMem vm.memory a ((vm.registers r % 256).toNat) },
               stdin, [], true)
        else
          .ok (vm, stdin, [], true)
      else
        .error .panic
    | .error p => .error p
  | .StoreWord =>
    match regIdx b1 with
    | .ok r =>
      let a := asUsize b2
      let v := ((vm.registers r % 65536).toNat)
      if a + 2 ≤ MAX_MEMORY then
        .ok ({ vm with memory := setMem (setMem vm.memory a (v % 256)) (a + 1) (v / 256) },
             stdin, [], true)
      else if a + 1 = MAX_MEMORY then
        .ok ({ vm with memory := setMem vm.memory a (v % 256) }, stdin, [], true)
      else if a = MAX_MEMORY then
        .ok (vm, stdin, [], true)
      else
        .error .panic
    | .error p => .error p
  | .Subtract =>
    match regIdx b1, regIdx b2 with
    | .ok rA, .ok rB =>
      .ok ({ vm with registers :=
               setReg vm.registers rA (wrap32 (vm.registers rA - vm.registers rB)) },
           stdin, [], true)
    | .error p, _ => .error p
    | _, .error p => .error p
  | .End => .ok (vm, stdin, [], false)

/-- The outcome of one iteration of the `loop` in `VM::run`: either the
dispatcher returned `true` and the loop advanced PC by 12 and goes on
(`goOn`), or it returned `false` and the loop breaks (`halt`). -/
inductive StepResult where
  | goOn (vm : VM) (stdin : List ReadEvent) (out : List OutEvent)
  | halt (vm : VM) (stdin : List ReadEvent) (out : List OutEvent)

/-- The tail of one loop iteration after decode: run the dispatcher,
then — only when it reported "continue" — apply the loop's unconditional
`self.registers[pc] += 12`. -/
def stepExec (vm : VM) (instr : InstructionType) (b1 b2 : Int)
    (stdin : List ReadEvent) : Except Panic StepResult :=
  match execute vm instr b1 b2 stdin with
  | .error p => .error p
  | .ok (vm2, stdin2, out2, running) =>
    if running then
      let vm3 : VM :=
        { vm2 with registers :=
                     setReg vm2.registers pcIndex (wrap32 (vm2.registers pcIndex + 12)) }
      .ok (.goOn vm3 stdin2 out2)
    else
      .ok (.halt vm2 stdin2 out2)

/-- The byte address the loop fetches from: `self.registers[pc] as usize`. -/
def fetchAddress (vm : VM) : Nat := asUsize (vm.registers pcIndex)

/-- One full iteration of the `loop` in `VM::run`: fetch the 12-byte
record at PC (the slicing plus three `read_i32` `unwrap`s panic unless
all 12 bytes exist), decode the opcode, and dispatch. A word that decodes
to no instruction makes the loop stop (`_ => false` in the match). -/
def step (vm : VM) (stdin : List ReadEvent) : Except Panic StepResult :=
  if fetchAddress vm + 12 ≤ MAX_MEMORY then
    match decodeInstruction (readI32 vm.memory (fetchAddress vm)) with
    | some instr =>
      stepExec vm instr (readI32 vm.memory (fetchAddress vm + 4))
        (readI32 vm.memory (fetchAddress vm + 8)) stdin
    | none => .ok (.halt vm stdin [])
  else
    .error .panic

/-- A finished run, or fuel exhaustion of the model (the Rust loop has
no fuel; `outOfFuel` never corresponds to a source behavior and only
makes the recursion total). -/
inductive RunResult where
  | halted (vm : VM) (stdin : List ReadEvent) (out : List OutEvent)
  | outOfFuel (vm : VM) (stdin : List ReadEvent) (out : List OutEvent)

/-- The `loop` of `VM::run`, iterated at most `fuel` times, accumulating
output. -/
def runLoop (vm : VM) (stdin : List ReadEvent) (out : List OutEvent) :
    Nat → Except Panic RunResult
  | 0 => .ok (.outOfFuel vm stdin out)
  | fuel + 1 =>
    match step vm stdin with
    | .error p => .error p
    | .ok (.halt vm2 stdin2 out2) => .ok (.halted vm2 stdin2 (out ++ out2))
    | .ok (.goOn vm2 stdin2 out2) => runLoop vm2 stdin2 (out ++ out2) fuel

/-- The constructor `VM::new`: allocate the 10,000,000-byte buffer, copy
the program bytes into its low end (the copy loop writes indices
`code.len()-1` down to `0`, so its very first write panics exactly when
the program is longer than the buffer), zero all registers. -/
def VM.new (code : List Nat) : Except Panic VM :=
  if code.length ≤ MAX_MEMORY then
    .ok { registers := fun _ => 0,
          memory := fun i => if i < code.length then code.getD i 0 else 0 }
  else
    .error .panic

/-- The state right before the first fetch of `VM::run`: only the PC
slot has been written (`self.registers[pc] = start_address as i32`). -/
def startState (vm : VM) (startAddress : Nat) : VM :=
  { vm with registers := setReg vm.registers pcIndex (wrap32 (Int.ofNat startAddress)) }

/-- The entry point `VM::run`: set PC to the caller-supplied start
address, then iterate the loop. -/
def VM.run (vm : VM) (startAddress : Nat) (stdin : List ReadEvent)
    (fuel : Nat) : Except Panic RunResult :=
  runLoop (startState vm startAddress) stdin [] fuel

/-! ## Basic lemmas about the embedding's primitives -/

theorem asUsize_ofNat (n : Nat) (h : n < USIZE_MOD) : asUsize ((n : Nat) : Int) = n := by
  unfold asUsize USIZE_MOD at *
  omega

theorem wrap32_id (v : Int) (h1 : -2147483648 ≤ v) (h2 : v < 2147483648) :
    wrap32 v = v := by
  unfold wrap32
  omega

theorem regIdx_ofFin (r : Fin 13) : regIdx ((r.val : Nat) : Int) = .ok r := by
  have hu : asUsize ((r.val : Nat) : Int) = r.val :=
    asUsize_ofNat r.val (by have := r.isLt; unfold USIZE_MOD; omega)
  unfold regIdx
  simp only [hu, r.isLt, dif_pos]

theorem setReg_same (f : Fin 13 → Int) (i : Fin 13) (v : Int) :
    setReg f i v i = v := by
  simp [setReg]

theorem setReg_other (f : Fin 13 → Int) (i j : Fin 13) (v : Int) (h : j ≠ i) :
    setReg f i v j = f j := by
  simp [setReg, h]

/-! ## Concrete states used by witnesses -/

/-- An engine state with all registers zero and all memory zero. -/
def vm0 : VM := { registers := fun _ => 0, memory := fun _ => 0 }

/-! ## Claims -/

/-- C2: constructing the engine from a program whose byte length exceeds
the fixed 10,000,000-byte capacity never truncates and never starts a
run, but the code reports no error: the copy loop's very first write
indexes past the buffer and the process panics. -/
theorem c2_new_oversized_program_panics (code : List Nat)
    (h : MAX_MEMORY < code.length) :
    VM.new code = .error .panic := by
  unfold VM.new
  rw [if_neg (by omega)]

/-- Witness for C2: a program one byte over capacity makes `VM::new`
panic. -/
theorem c2_new_oversized_program_panics_witness :
    MAX_MEMORY < (List.replicate (MAX_MEMORY + 1) (0 : Nat)).length ∧
    VM.new (List.replicate (MAX_MEMORY + 1) (0 : Nat)) = .error .panic := by
  have h : MAX_MEMORY < (List.replicate (MAX_MEMORY + 1) (0 : Nat)).length := by
    rw [List.length_replicate]
    omega
  exact ⟨h, c2_new_oversized_program_panics _ h⟩

/-- C4: a register operand outside `[0,13)` is not rejected with an
error by the dispatcher: the unchecked `[i32; 13]` indexing panics and
the process aborts (shown on the `Add` arm, whose destination operand is
cast with `as usize` and indexed blindly). -/
theorem c4_bad_register_index_panics (vm : VM) (stdin : List ReadEvent)
    (b1 b2 : Int) (h : 13 ≤ asUsize b1) :
    execute vm .Add b1 b2 stdin = .error .panic := by
  have hb : regIdx b1 = .error .panic := by
    unfold regIdx
    rw [dif_neg (by omega)]
  simp [execute, hb]

/-- Witness for C4: register operand 13 on `Add` panics. -/
theorem c4_bad_register_index_panics_witness :
    13 ≤ asUsize 13 ∧ execute vm0 .Add 13 0 [] = .error .panic :=
  ⟨by decide, c4_bad_register_index_panics vm0 [] 13 0 (by decide)⟩

/-- C8: when `InputInteger`'s line fails to parse as a signed integer, or
the read itself fails, the whole state — in particular the IO register,
which keeps whatever value an earlier instruction left — is unchanged,
one diagnostic is printed, and the dispatcher returns `true` so the run
continues with the next instruction. -/
theorem c8_input_integer_failure_skips (vm : VM) (b1 b2 : Int)
    (chars : List Nat) (rest : List ReadEvent) :
    execute vm .InputInteger b1 b2 (.readLine chars none :: rest)
      = .ok (vm, rest, [.diag], true) ∧
    execute vm .InputInteger b1 b2 (.readFail :: rest)
      = .ok (vm, rest, [.diag], true) :=
  ⟨rfl, rfl⟩

/-- C9: `Divide` with a zero divisor does not surface an arithmetic-fault
error value to the caller: the unchecked `/=` panics and the process
aborts with Rust's own panic message. -/
theorem c9_divide_by_zero_panics (vm : VM) (stdin : List ReadEvent)
    (r1 r2 : Fin 13) (h : vm.registers r2 = 0) :
    execute vm .Divide ((r1.val : Int)) ((r2.val : Int)) stdin
      = .error .panic := by
  simp [execute, regIdx_ofFin, h]

/-- Witness for C9: dividing register 0 by register 1 when register 1
holds 0 panics. -/
theorem c9_divide_by_zero_panics_witness :
    vm0.registers 1 = 0 ∧
    execute vm0 .Divide (((0 : Fin 13).val : Int)) (((1 : Fin 13).val : Int)) []
      = .error .panic :=
  ⟨rfl, c9_divide_by_zero_panics vm0 [] 0 1 rfl⟩

/-- C5: `Compare` stores exactly one of {-1, 0, 1} into its first
register, namely the sign of the mathematical difference of the two
register values — the arm compares and never subtracts, so the result is
fixed by the ordering even where a 32-bit subtraction would overflow —
and the stored sign is antisymmetric in its operands. -/
theorem c5_compare_sign_antisymmetric (vm : VM) (stdin : List ReadEvent)
    (r1 r2 : Fin 13) :
    ∃ vm2,
      execute vm .Compare ((r1.val : Int)) ((r2.val : Int)) stdin
        = .ok (vm2, stdin, [], true) ∧
      vm2.registers r1 = compareValue (vm.registers r1) (vm.registers r2) ∧
      (compareValue (vm.registers r1) (vm.registers r2) = -1 ∨
        compareValue (vm.registers r1) (vm.registers r2) = 0 ∨
        compareValue (vm.registers r1) (vm.registers r2) = 1) ∧
      compareValue (vm.registers r1) (vm.registers r2)
        = Int.sign (vm.registers r1 - vm.registers r2) ∧
      compareValue (vm.registers r1) (vm.registers r2)
        = - compareValue (vm.registers r2) (vm.registers r1) := by
  have he : execute vm .Compare ((r1.val : Int)) ((r2.val : Int)) stdin
      = .ok ({ vm with registers :=
                         setReg vm.registers r1
                           (compareValue (vm.registers r1) (vm.registers r2)) },
             stdin, [], true) := by
    simp [execute, regIdx_ofFin]
  have hsign : ∀ a b : Int, compareValue a b = Int.sign (a - b) := by
    intro a b
    rcases lt_trichotomy a b with h | h | h
    · have hs : (a - b).sign = -1 := Int.sign_eq_neg_one_iff_neg.mpr (by omega)
      rw [compareValue, if_pos h, hs]
    · subst h
      simp [compareValue]
    · have hs : (a - b).sign = 1 := Int.sign_eq_one_iff_pos.mpr (by omega)
      rw [compareValue, if_neg (by omega), if_pos h, hs]
  have htri : ∀ a b : Int,
      compareValue a b = -1 ∨ compareValue a b = 0 ∨ compareValue a b = 1 := by
    intro a b
    unfold compareValue
    split_ifs <;> simp
  have hanti : ∀ a b : Int, compareValue a b = - compareValue b a := by
    intro a b
    unfold compareValue
    split_ifs <;> omega
  exact ⟨_, he, setReg_same _ _ _, htri _ _, hsign _ _, hanti _ _⟩

/-- C3: accesses at the capacity boundary do not all surface a distinct
error value. The instruction fetch and the loads panic there (`LoadByte`
at address 10,000,000 shown), while `StoreByte` at that address silently
drops the write — the `write_u8` error is discarded, nothing changes and
the run continues — and `StoreWord` one byte below capacity performs a
partial write of the low byte only, also silently continuing. -/
theorem c3_oob_memory_access_behavior (vm : VM) (stdin : List ReadEvent)
    (r : Fin 13) :
    execute vm .LoadByte (r.val : Int) ((MAX_MEMORY : Nat) : Int) stdin
      = .error .panic ∧
    execute vm .StoreByte (r.val : Int) ((MAX_MEMORY : Nat) : Int) stdin
      = .ok (vm, stdin, [], true) ∧
    ∃ vm2,
      execute vm .StoreWord (r.val : Int) ((MAX_MEMORY - 1 : Nat) : Int) stdin
        = .ok (vm2, stdin, [], true) ∧
      vm2.registers = vm.registers ∧
      vm2.memory (MAX_MEMORY - 1) = ((vm.registers r % 65536).toNat) % 256 ∧
      ∀ a, a ≠ MAX_MEMORY - 1 → vm2.memory a = vm.memory a := by
  have hmaxU : asUsize ((MAX_MEMORY : Nat) : Int) = MAX_MEMORY :=
    asUsize_ofNat _ (by unfold MAX_MEMORY USIZE_MOD; omega)
  have hm1U : asUsize ((MAX_MEMORY - 1 : Nat) : Int) = MAX_MEMORY - 1 :=
    asUsize_ofNat _ (by unfold MAX_MEMORY USIZE_MOD; omega)
  refine ⟨?_, ?_, ?_⟩
  · simp only [execute, regIdx_ofFin, hmaxU]
    rw [if_neg (by unfold MAX_MEMORY; omega)]
  · simp only [execute, regIdx_ofFin, hmaxU]
    rw [if_pos (le_refl _), if_neg (lt_irrefl _)]
  · have he : execute vm .StoreWord (r.val : Int) ((MAX_MEMORY - 1 : Nat) : Int) stdin
        = .ok ({ vm with memory :=
                           setMem vm.memory (MAX_MEMORY - 1)
                             (((vm.registers r % 65536).toNat) % 256) },
               stdin, [], true) := by
      simp only [execute, regIdx_ofFin, hm1U]
      rw [if_neg (by unfold MAX_MEMORY; omega), if_pos (by unfold MAX_MEMORY; omega)]
    refine ⟨_, he, rfl, by simp [setMem], ?_⟩
    intro a ha
    simp [setMem, ha]

/-- C6: with the IO register holding any digit code point 48..57, running
`ConvertASCIIToInteger` and then `ConvertIntegerToASCII` restores the
original value; with IO holding any other 32-bit value, the first
conversion leaves the sentinel -1 in IO and the second conversion then
leaves the sentinel 48 — never a propagated arithmetic value. -/
theorem c6_ascii_integer_roundtrip (vm : VM) (stdin : List ReadEvent)
    (b1 b2 b3 b4 : Int)
    (hlo : -2147483648 ≤ vm.registers ioIndex)
    (hhi : vm.registers ioIndex < 2147483648) :
    ∃ vm1 vm2,
      execute vm .ConvertASCIIToInteger b1 b2 stdin
        = .ok (vm1, stdin, [], true) ∧
      execute vm1 .ConvertIntegerToASCII b3 b4 stdin
        = .ok (vm2, stdin, [], true) ∧
      (48 ≤ vm.registers ioIndex ∧ vm.registers ioIndex ≤ 57 →
        vm2.registers ioIndex = vm.registers ioIndex) ∧
      ((vm.registers ioIndex < 48 ∨ 57 < vm.registers ioIndex) →
        vm1.registers ioIndex = -1 ∧ vm2.registers ioIndex = 48) := by
  obtain ⟨vm1, he1, hio1⟩ :
      ∃ vm1, execute vm .ConvertASCIIToInteger b1 b2 stdin
          = .ok (vm1, stdin, [], true) ∧
        vm1.registers ioIndex
          = (if wrap32 (vm.registers ioIndex - 48) < 0 ∨
                9 < wrap32 (vm.registers ioIndex - 48)
             then (-1 : Int) else wrap32 (vm.registers ioIndex - 48)) :=
    ⟨_, rfl, rfl⟩
  obtain ⟨vm2, he2, hio2⟩ :
      ∃ vm2, execute vm1 .ConvertIntegerToASCII b3 b4 stdin
          = .ok (vm2, stdin, [], true) ∧
        vm2.registers ioIndex
          = (if wrap32 (vm1.registers ioIndex + 48) < 48 ∨
                57 < wrap32 (vm1.registers ioIndex + 48)
             then (48 : Int) else wrap32 (vm1.registers ioIndex + 48)) :=
    ⟨_, rfl, rfl⟩
  refine ⟨vm1, vm2, he1, he2, ?_, ?_⟩
  · rintro ⟨h48, h57⟩
    have ha : wrap32 (vm.registers ioIndex - 48) = vm.registers ioIndex - 48 :=
      wrap32_id _ (by omega) (by omega)
    rw [ha, if_neg (by omega)] at hio1
    rw [hio1] at hio2
    have hb : wrap32 (vm.registers ioIndex - 48 + 48) = vm.registers ioIndex := by
      have hc : vm.registers ioIndex - 48 + 48 = vm.registers ioIndex := by ring
      rw [hc]
      exact wrap32_id _ hlo hhi
    rw [hb, if_neg (by omega)] at hio2
    exact hio2
  · intro hcase
    have ha : wrap32 (vm.registers ioIndex - 48) < 0 ∨
        9 < wrap32 (vm.registers ioIndex - 48) := by
      rcases hcase with h | h <;> (unfold wrap32; omega)
    rw [if_pos ha] at hio1
    rw [hio1] at hio2
    have hb : wrap32 (-1 + 48) = 47 := by unfold wrap32; omega
    rw [hb, if_pos (by omega)] at hio2
    exact ⟨hio1, hio2⟩

/-- C7: an `End` instruction makes the dispatcher return `false` with no
register or memory effect, and the loop then breaks before its PC
advance: the run halts in exactly the pre-`End` state, with no further
register, memory, or output effect, no matter how much program or fuel
remains. -/
theorem c7_end_halts_without_mutation (vm : VM)
    (hfit : fetchAddress vm + 12 ≤ MAX_MEMORY)
    (hdec : decodeInstruction (readI32 vm.memory (fetchAddress vm)) = some .End) :
    (∀ b1 b2 stdin, execute vm .End b1 b2 stdin = .ok (vm, stdin, [], false)) ∧
    (∀ stdin out fuel, runLoop vm stdin out (fuel + 1) = .ok (.halted vm stdin out)) := by
  constructor
  · intro b1 b2 stdin
    rfl
  · intro stdin out fuel
    have hs : step vm stdin = .ok (.halt vm stdin []) := by
      unfold step
      rw [if_pos hfit, hdec]
      rfl
    simp only [runLoop, hs]
    simp

/-- An engine state whose IO register holds the code point of the digit
character 5 and all else is zero. -/
def vmIO53 : VM :=
  { registers := fun i => if i = ioIndex then 53 else 0, memory := fun _ => 0 }

/-- Witness for C6: starting from IO = 53 (the character 5), the two
conversions are executable and the round trip restores 53. -/
theorem c6_ascii_integer_roundtrip_witness :
    -2147483648 ≤ vmIO53.registers ioIndex ∧
    vmIO53.registers ioIndex < 2147483648 ∧
    ∃ vm1 vm2,
      execute vmIO53 .ConvertASCIIToInteger 0 0 []
        = .ok (vm1, [], [], true) ∧
      execute vm1 .ConvertIntegerToASCII 0 0 []
        = .ok (vm2, [], [], true) ∧
      (48 ≤ vmIO53.registers ioIndex ∧ vmIO53.registers ioIndex ≤ 57 →
        vm2.registers ioIndex = vmIO53.registers ioIndex) ∧
      ((vmIO53.registers ioIndex < 48 ∨ 57 < vmIO53.registers ioIndex) →
        vm1.registers ioIndex = -1 ∧ vm2.registers ioIndex = 48) :=
  ⟨by decide, by decide,
   c6_ascii_integer_roundtrip vmIO53 [] 0 0 0 0 (by decide) (by decide)⟩

/-- An engine state whose memory holds one `End` instruction record at
address 0 (opcode word 26, both operands 0) and whose registers are all
zero, so the PC points at the `End`. -/
def vmEnd : VM :=
  { registers := fun _ => 0, memory := fun a => if a = 0 then 26 else 0 }

/-- Witness for C7: with an `End` record under the PC, one loop
iteration halts with the state and accumulated output unchanged. -/
theorem c7_end_halts_without_mutation_witness :
    fetchAddress vmEnd + 12 ≤ MAX_MEMORY ∧
    decodeInstruction (readI32 vmEnd.memory (fetchAddress vmEnd)) = some .End ∧
    runLoop vmEnd [] [] 5 = .ok (.halted vmEnd [] []) :=
  ⟨by decide, by decide,
   (c7_end_halts_without_mutation vmEnd (by decide) (by decide)).2 [] [] 4⟩

/-- C10: `VM::new` zeroes all 13 registers and all memory past the
program's own bytes, and `VM::run` writes only the PC slot (with the
caller's start address) before entering the loop — so at the moment of
any run's first fetch the IO register and the 11 general-purpose
registers all hold 0. -/
theorem c10_initial_registers_zero (code : List Nat)
    (h : code.length ≤ MAX_MEMORY) :
    ∃ vm, VM.new code = .ok vm ∧
      (∀ i, vm.registers i = 0) ∧
      (∀ a, a < code.length → vm.memory a = code.getD a 0) ∧
      (∀ a, code.length ≤ a → vm.memory a = 0) ∧
      ∀ start,
        (∀ i, i ≠ pcIndex → (startState vm start).registers i = 0) ∧
        (start < 2147483648 →
          (startState vm start).registers pcIndex = ((start : Nat) : Int)) ∧
        ∀ stdin fuel,
          VM.run vm start stdin fuel = runLoop (startState vm start) stdin [] fuel := by
  refine ⟨_, by unfold VM.new; rw [if_pos h], fun i => rfl, ?_, ?_, ?_⟩
  · intro a ha
    simp only [if_pos ha]
  · intro a ha
    simp only [if_neg (by omega : ¬ a < code.length)]
  · intro start
    refine ⟨?_, ?_, fun stdin fuel => rfl⟩
    · intro i hi
      simp [startState, setReg, hi]
    · intro hstart
      have hw : wrap32 ((start : Nat) : Int) = ((start : Nat) : Int) :=
        wrap32_id _ (by omega) (by omega)
      simp [startState, setReg, hw]

/-- Witness for C10: a three-byte program is loadable and yields the
all-zero initial register file. -/
theorem c10_initial_registers_zero_witness :
    [7, 8, 9].length ≤ MAX_MEMORY ∧
    ∃ vm, VM.new [7, 8, 9] = .ok vm ∧
      (∀ i, vm.registers i = 0) ∧
      (∀ a, a < [7, 8, 9].length → vm.memory a = [7, 8, 9].getD a 0) ∧
      (∀ a, [7, 8, 9].length ≤ a → vm.memory a = 0) ∧
      ∀ start,
        (∀ i, i ≠ pcIndex → (startState vm start).registers i = 0) ∧
        (start < 2147483648 →
          (startState vm start).registers pcIndex = ((start : Nat) : Int)) ∧
        ∀ stdin fuel,
          VM.run vm start stdin fuel = runLoop (startState vm start) stdin [] fuel :=
  ⟨by decide, c10_initial_registers_zero [7, 8, 9] (by decide)⟩

/-- A control-transfer instruction whose jump condition is satisfied,
with target operand value `T`: `Jump` takes its target from the first
operand word, `JumpRelative` from the named register, and the four
conditional jumps from the second operand word when the tested register
satisfies their condition. -/
def isTakenJump (vm : VM) (instr : InstructionType) (b1 b2 T : Int) : Prop :=
  (instr = .Jump ∧ b1 = T) ∨
  (instr = .JumpRelative ∧ ∃ r : Fin 13, b1 = (r.val : Int) ∧ vm.registers r = T) ∨
  (instr = .CompareZeroJump ∧ b2 = T ∧
    ∃ r : Fin 13, b1 = (r.val : Int) ∧ vm.registers r = 0) ∨
  (instr = .NonZeroJump ∧ b2 = T ∧
    ∃ r : Fin 13, b1 = (r.val : Int) ∧ vm.registers r ≠ 0) ∨
  (instr = .GreaterThanZeroJump ∧ b2 = T ∧
    ∃ r : Fin 13, b1 = (r.val : Int) ∧ 0 < vm.registers r) ∨
  (instr = .LessThanZeroJump ∧ b2 = T ∧
    ∃ r : Fin 13, b1 = (r.val : Int) ∧ vm.registers r < 0)

/-- Every taken jump writes exactly `wrap32 (T - 12)` into the PC slot
and reports "continue". -/
theorem execute_taken_jump (vm : VM) (instr : InstructionType) (b1 b2 T : Int)
    (stdin : List ReadEvent) (htaken : isTakenJump vm instr b1 b2 T) :
    execute vm instr b1 b2 stdin
      = .ok ({ vm with registers := setReg vm.registers pcIndex (wrap32 (T - 12)) },
             stdin, [], true) := by
  rcases htaken with ⟨hi, hT⟩ | ⟨hi, r, hb, hT⟩ | ⟨hi, hT, r, hb, hr⟩ |
    ⟨hi, hT, r, hb, hr⟩ | ⟨hi, hT, r, hb, hr⟩ | ⟨hi, hT, r, hb, hr⟩
  · subst hi hT
    rfl
  · subst hi hb hT
    simp [execute, regIdx_ofFin]
  · subst hi hb hT
    simp [execute, regIdx_ofFin, hr]
  · subst hi hb hT
    simp [execute, regIdx_ofFin, hr]
  · subst hi hb hT
    simp [execute, regIdx_ofFin, hr]
  · subst hi hb hT
    simp [execute, regIdx_ofFin, hr]

/-- C1: a control-transfer instruction executed with its condition
satisfied and (in-range) target operand value T stores T - 12 into the
PC slot; the loop's single mandatory `pc += 12` then leaves PC = T, so
the next iteration fetches from byte address T — the dispatcher's
subtraction exactly cancels the loop's advance, which is applied once,
never twice. -/
theorem c1_taken_jump_lands_on_target (vm : VM) (instr : InstructionType)
    (b1 b2 T : Int) (stdin : List ReadEvent)
    (htaken : isTakenJump vm instr b1 b2 T)
    (hT0 : 0 ≤ T) (hT : T < 2147483648) :
    ∃ vm2 vm3,
      execute vm instr b1 b2 stdin = .ok (vm2, stdin, [], true) ∧
      vm2.registers pcIndex = T - 12 ∧
      vm2.memory = vm.memory ∧
      stepExec vm instr b1 b2 stdin = .ok (.goOn vm3 stdin []) ∧
      vm3.registers pcIndex = T ∧
      vm3.memory = vm.memory ∧
      fetchAddress vm3 = T.toNat := by
  have he := execute_taken_jump vm instr b1 b2 T stdin htaken
  have hw : wrap32 (T - 12) = T - 12 := wrap32_id _ (by omega) (by omega)
  have hpc2 : (setReg vm.registers pcIndex (wrap32 (T - 12))) pcIndex = T - 12 := by
    rw [setReg_same, hw]
  have hs : stepExec vm instr b1 b2 stdin
      = .ok (.goOn
              { registers :=
                  setReg (setReg vm.registers pcIndex (wrap32 (T - 12))) pcIndex
                    (wrap32 ((setReg vm.registers pcIndex (wrap32 (T - 12))) pcIndex + 12)),
                memory := vm.memory }
              stdin []) := by
    unfold stepExec
    rw [he]
    rfl
  have hpc3 : (setReg (setReg vm.registers pcIndex (wrap32 (T - 12))) pcIndex
      (wrap32 ((setReg vm.registers pcIndex (wrap32 (T - 12))) pcIndex + 12))) pcIndex
      = T := by
    rw [setReg_same, hpc2]
    have h12 : T - 12 + 12 = T := by ring
    rw [h12]
    exact wrap32_id _ (by omega) (by omega)
  refine ⟨_, _, he, hpc2, rfl, hs, hpc3, rfl, ?_⟩
  unfold fetchAddress
  show asUsize
      (setReg (setReg vm.registers pcIndex (wrap32 (T - 12))) pcIndex
        (wrap32 ((setReg vm.registers pcIndex (wrap32 (T - 12))) pcIndex + 12)) pcIndex)
    = T.toNat
  rw [hpc3]
  unfold asUsize USIZE_MOD
  omega

/-- Witness for C1: a `Jump` with target operand 24 lands the next fetch
on address 24. -/
theorem c1_taken_jump_lands_on_target_witness :
    isTakenJump vm0 .Jump 24 0 24 ∧ (0 : Int) ≤ 24 ∧ (24 : Int) < 2147483648 ∧
    ∃ vm2 vm3,
      execute vm0 .Jump 24 0 [] = .ok (vm2, [], [], true) ∧
      vm2.registers pcIndex = 24 - 12 ∧
      vm2.memory = vm0.memory ∧
      stepExec vm0 .Jump 24 0 [] = .ok (.goOn vm3 [] []) ∧
      vm3.registers pcIndex = 24 ∧
      vm3.memory = vm0.memory ∧
      fetchAddress vm3 = (24 : Int).toNat :=
  ⟨Or.inl ⟨rfl, rfl⟩, by decide, by decide,
   c1_taken_jump_lands_on_target vm0 .Jump 24 0 24 [] (Or.inl ⟨rfl, rfl⟩)
     (by decide) (by decide)⟩
